import Mathlib

/-!
Verification development for the webdna-mcp-server repository.

The file shallowly embeds the parts of the code that the checked
properties speak about:

* the HTTP adapter's request correlator (`mcp-http-server.js`):
  the pending-response map, the stdout line handler, the per-request
  timeout callback, the child-process exit handler and the `send`
  operation;
* the documentation store client (`src/documentation.js` /
  `src/database.js`): `searchDocumentation`, `getDocumentationById`,
  `getCategories`, `getRandomDocumentation`, `getDocumentationCount`
  and the read-through cache `cachedQuery`;
* the HTTP route `POST /mcp/invoke_tool`;
* the stdio worker (`mcp-stdin-server.js`): the `init` handler and
  `handleToolInvocation`.

Conventions: JS `Map` objects become association lists whose `set`
operation replaces the previous binding; timestamps are naturals
(milliseconds); relevance scores are naturals counted in tenths of the
JS floating-point unit (1.0 becomes 10, 0.5 becomes 5, 0.3 becomes 3,
0.1 becomes 1 - only equalities and order comparisons of scores are
used, and those are preserved by the scaling); SQL `ILIKE '%q%'` on a
pattern without metacharacters becomes case-insensitive substring
containment; results of the store's full-text index (a Postgres
`tsvector` the code never computes itself) are an explicit parameter
(`ftsRows`) of the search model.
-/

namespace WebdnaMcp

/-! ### Generic association maps (JS `Map` with `get`/`set`/`delete`) -/

/-- Lookup in an association list, first binding wins (JS `Map.get`). -/
def assocLookup {κ : Type} {β : Type} [DecidableEq κ] : List (κ × β) → κ → Option β
  | [], _ => none
  | (j, v) :: rest, i => if j = i then some v else assocLookup rest i

/-- Remove every binding of a key (JS `Map.delete`). -/
def assocRemove {κ : Type} {β : Type} [DecidableEq κ] : List (κ × β) → κ → List (κ × β)
  | [], _ => []
  | (j, v) :: rest, i =>
      if j = i then assocRemove rest i else (j, v) :: assocRemove rest i

/-- Insert or replace a binding (JS `Map.set`). -/
def assocSet {κ : Type} {β : Type} [DecidableEq κ]
    (m : List (κ × β)) (i : κ) (v : β) : List (κ × β) :=
  (i, v) :: assocRemove m i

/-! ### Character-level string helpers

Lean's own `String.toLower`, `String.trim` and `String.toNat?` do not
reduce inside the kernel, so the embedding works on `String.data`
directly with structurally recursive helpers. -/

/-- Lower-cased character data of a string (JS `toLowerCase`, ASCII). -/
def lowerData (s : String) : List Char := s.data.map Char.toLower

/-- Whether the first list is an initial segment of the second. -/
def leadsWith : List Char → List Char → Bool
  | [], _ => true
  | _ :: _, [] => false
  | a :: as, b :: bs => a = b && leadsWith as bs

/-- Whether `pat` occurs contiguously inside `hay` (JS `includes`,
SQL `ILIKE '%pat%'` after lower-casing both sides). -/
def containsChars (hay pat : List Char) : Bool :=
  match hay with
  | [] => pat.isEmpty
  | _ :: rest => leadsWith pat hay || containsChars rest pat

/-- JS `String.prototype.trim` followed by `toLowerCase`, on character
data: this is the query normalisation `query.trim().toLowerCase()`. -/
def trimLower (s : String) : List Char :=
  (((s.data.dropWhile Char.isWhitespace).reverse.dropWhile
      Char.isWhitespace).reverse).map Char.toLower

/-- Value of a decimal-digit string (only used under `isNumericKey`). -/
def parseDigits (cs : List Char) : Nat :=
  cs.foldl (fun n c => 10 * n + (c.toNat - '0'.toNat)) 0

/-- The regular-expression test `/^\d+$/.test(key)`: non-empty and all
decimal digits. -/
def isNumericKey (s : String) : Bool :=
  !s.data.isEmpty && s.data.all Char.isDigit

/-! ### Wire protocol and the HTTP adapter's request correlator
(`mcp-http-server.js`) -/

/-- The `type` discriminator of a protocol message. -/
inductive MsgType where
  | init
  | ready
  | listTools
  | tools
  | invokeTool
  | toolResult
  | toolError
  | ping
deriving DecidableEq, Repr

/-- One parsed newline-delimited JSON message; fields other than `type`
and `id` are opaque for the correlator and collapsed into `payload`. -/
structure WireMsg where
  type : MsgType
  id : Option String
  payload : String
deriving DecidableEq, Repr

/-- One entry of the `pendingResponses` map: the waiting HTTP response
object (identified by a number), the send timestamp and the armed
timer handle. -/
structure PendingEntry where
  caller : Nat
  startTime : Nat
  timeoutId : Nat
deriving DecidableEq, Repr

/-- The `pendingResponses` map, keyed by correlation id. -/
abbrev PendingMap := List (String × PendingEntry)

/-- The `error` object of a synthetic `tool_error` response. -/
structure ErrorInfo where
  message : String
  code : Option String
deriving DecidableEq, Repr

/-- Body of an HTTP response produced by the correlator: either the
worker's message passed through (`res.json(message)`) or a synthetic
`tool_error` built by the adapter itself. -/
inductive RespBody where
  | passthrough (msg : WireMsg)
  | toolErr (id : String) (err : ErrorInfo)
deriving DecidableEq, Repr

/-- One delivery of an HTTP response to a waiting caller. -/
structure Delivery where
  caller : Nat
  status : Nat
  body : RespBody
deriving DecidableEq, Repr

/-- Result of one correlator event: the new pending map, the HTTP
deliveries made, the timers cleared, and the messages that fell into
the logged `Unhandled message from MCP` branch. -/
structure HandlerOut where
  pending : PendingMap
  deliveries : List Delivery
  cancelledTimers : List Nat
  unhandled : List WireMsg
deriving DecidableEq, Repr

/-- The synthetic timeout error: `{message: 'Timeout waiting for MCP
response', code: 'TIMEOUT'}`. -/
def timeoutErrorInfo : ErrorInfo :=
  { message := "Timeout waiting for MCP response", code := some "TIMEOUT" }

/-- The synthetic crash error: `{message: 'MCP process terminated
unexpectedly'}` (no code field). -/
def terminatedErrorInfo : ErrorInfo :=
  { message := "MCP process terminated unexpectedly", code := none }

/-- JS truthiness of the optional `message.id` string: absent and the
empty string are falsy. -/
def truthyId : Option String → Option String
  | none => none
  | some s => if s = "" then none else some s

/-- The `else if`-chain of the stdout handler for a message whose id is
falsy or not pending: `ready` and `ping` are logged and dropped,
everything else is logged as unhandled. -/
def handleNonPending (p : PendingMap) (msg : WireMsg) : HandlerOut :=
  if msg.type = MsgType.ready then ⟨p, [], [], []⟩
  else if msg.type = MsgType.ping then ⟨p, [], [], []⟩
  else ⟨p, [], [], [msg]⟩

/-- The `mcpProcess.stdout.on('data')` handler for one parsed line: if
`message.id` is truthy and pending, the entry is deleted from
`pendingResponses`, its timer cleared, and the message delivered as the
HTTP response of exactly that caller; otherwise the non-pending chain
runs. -/
def handleMessage (p : PendingMap) (msg : WireMsg) : HandlerOut :=
  match truthyId msg.id with
  | some i =>
      match assocLookup p i with
      | some e =>
          { pending := assocRemove p i
            deliveries := [⟨e.caller, 200, RespBody.passthrough msg⟩]
            cancelledTimers := [e.timeoutId]
            unhandled := [] }
      | none => handleNonPending p msg
  | none => handleNonPending p msg

/-- Fold of `handleMessage` over the lines of one stdout chunk,
accumulating the deliveries in processing order. -/
def handleLines (p : PendingMap) : List WireMsg → PendingMap × List Delivery
  | [] => (p, [])
  | m :: ms =>
      let out := handleMessage p m
      let rest := handleLines out.pending ms
      (rest.1, out.deliveries ++ rest.2)

/-- The timer callback armed by `send`: if the id is still pending the
entry is deleted and a 504 `tool_error` with code `TIMEOUT` is
delivered; a stale timer whose id has already been cleared does
nothing. -/
def handleTimeoutFire (p : PendingMap) (i : String) : HandlerOut :=
  match assocLookup p i with
  | some e =>
      { pending := assocRemove p i
        deliveries := [⟨e.caller, 504, RespBody.toolErr i timeoutErrorInfo⟩]
        cancelledTimers := []
        unhandled := [] }
  | none => ⟨p, [], [], []⟩

/-- Result of the `mcpProcess.on('exit')` handler. -/
structure ExitOut where
  pending : PendingMap
  deliveries : List Delivery
  cancelledTimers : List Nat
  restartDelayMs : Nat
deriving DecidableEq, Repr

/-- The single 500 failure built for one pending entry when the worker
process exits. -/
def exitDelivery (x : String × PendingEntry) : Delivery :=
  ⟨x.2.caller, 500, RespBody.toolErr x.1 terminatedErrorInfo⟩

/-- The `mcpProcess.on('exit')` handler: every pending entry has its
timer cleared and receives a 500 `tool_error` saying the worker
terminated unexpectedly, the pending map is cleared, and a restart is
scheduled after the fixed 5000 ms delay. -/
def handleExit (p : PendingMap) : ExitOut :=
  { pending := []
    deliveries := p.map exitDelivery
    cancelledTimers := p.map (fun x => x.2.timeoutId)
    restartDelayMs := 5000 }

/-- Result of the correlator's `send` operation. -/
structure SendOut where
  pending : PendingMap
  written : WireMsg
  requestId : String
  timeoutMs : Nat
deriving DecidableEq, Repr

/-- The `send(message, res, timeout)` operation: the correlation id is
`message.id || uuidv4()`, the caller is recorded under it in
`pendingResponses`, and the stamped message is written to the worker's
stdin. `freshId` stands for the `uuidv4()` draw and `tid` for the
timer handle returned by `setTimeout`. -/
def sendRequest (p : PendingMap) (msg : WireMsg) (caller : Nat) (now : Nat)
    (freshId : String) (tid : Nat) (timeoutMs : Nat) : SendOut :=
  let i := (truthyId msg.id).getD freshId
  { pending := assocSet p i ⟨caller, now, tid⟩
    written := { msg with id := some i }
    requestId := i
    timeoutMs := timeoutMs }

/-! ### Documentation store client (`src/documentation.js`, the
cache-aware revision) -/

/-- One row of the `documentation` table, with the joined
`categories(id, name)` embedded resource. -/
structure DocEntry where
  id : Nat
  instruction : String
  description : Option String
  url : String
  webdna_id : String
  category_id : Option Nat
  category_name : Option String
  related : List Nat
deriving DecidableEq, Repr

/-- One element of the `results` array built by `searchDocumentation`. -/
structure SearchItem where
  id : Nat
  instruction : String
  category : String
  category_id : Option Nat
  description : Option String
  url : String
  webdna_id : String
  match_type : String
  relevance_score : Nat
deriving DecidableEq, Repr

/-- Score of a name-substring match: the JS literal `1.0`, in tenths. -/
def exactScore : Nat := 10

/-- Base score of a full-text match: the JS literal `0.5`, in tenths. -/
def ftsBaseScore : Nat := 5

/-- Boost when the query occurs in the instruction name: `0.3`. -/
def nameBoost : Nat := 3

/-- Boost when the query occurs in the description: `0.1`. -/
def descrBoost : Nat := 1

/-- `match.instruction.toLowerCase().includes(normalizedQuery)`. -/
def nameHasQuery (nq : List Char) (e : DocEntry) : Bool :=
  containsChars (lowerData e.instruction) nq

/-- `match.description?.toLowerCase().includes(normalizedQuery)`; an
absent description makes the condition falsy. -/
def descrHasQuery (nq : List Char) (e : DocEntry) : Bool :=
  match e.description with
  | some d => containsChars (lowerData d) nq
  | none => false

/-- Relevance score of a full-text match: base 0.5, plus 0.3 when the
query occurs in the name, plus 0.1 when it occurs in the description. -/
def ftsScore (nq : List Char) (e : DocEntry) : Nat :=
  ftsBaseScore + (if nameHasQuery nq e then nameBoost else 0)
    + (if descrHasQuery nq e then descrBoost else 0)

/-- The result object pushed for a name-substring (`exact`) match. -/
def mkExactItem (e : DocEntry) : SearchItem :=
  { id := e.id
    instruction := e.instruction
    category := e.category_name.getD "Uncategorized"
    category_id := e.category_id
    description := e.description
    url := e.url
    webdna_id := e.webdna_id
    match_type := "exact"
    relevance_score := exactScore }

/-- The result object pushed for a full-text (`content`) match. -/
def mkFtsItem (nq : List Char) (e : DocEntry) : SearchItem :=
  { id := e.id
    instruction := e.instruction
    category := e.category_name.getD "Uncategorized"
    category_id := e.category_id
    description := e.description
    url := e.url
    webdna_id := e.webdna_id
    match_type := "content"
    relevance_score := ftsScore nq e }

/-- The full-text score recomputed from the fields a result item
carries; `mkFtsItem` copies `instruction` and `description` unchanged,
so a `content` item always satisfies
`relevance_score = contentScoreOfItem nq item`. -/
def contentScoreOfItem (nq : List Char) (it : SearchItem) : Nat :=
  ftsBaseScore
    + (if containsChars (lowerData it.instruction) nq then nameBoost else 0)
    + (if (match it.description with
           | some d => containsChars (lowerData d) nq
           | none => false) then descrBoost else 0)

/-- The optional `.eq('categories.name', category)` filter, read as the
intended row filter on the joined category name. -/
def categoryMatches (category : Option String) (e : DocEntry) : Bool :=
  match category with
  | none => true
  | some c => e.category_name = some c

/-- Byte-wise `≤` on character data, the order behind the store's
`.order('instruction')`. -/
def instrDataLe : List Char → List Char → Bool
  | [], _ => true
  | _ :: _, [] => false
  | a :: as, b :: bs => if a = b then instrDataLe as bs else decide (a < b)

/-- Row filter of the name-substring query: `instruction ILIKE
'%normalizedQuery%'` plus the optional category filter. -/
def exactPred (nq : List Char) (category : Option String) (e : DocEntry) : Bool :=
  containsChars (lowerData e.instruction) nq && categoryMatches category e

/-- Rows of the name-substring query: `WHERE instruction ILIKE
'%normalizedQuery%' [AND category] ORDER BY instruction`. -/
def exactRows (store : List DocEntry) (nq : List Char)
    (category : Option String) : List DocEntry :=
  List.insertionSort (fun a b => instrDataLe a.instruction.data b.instruction.data = true)
    (store.filter (exactPred nq category))

/-- The full-text `forEach` loop: each row whose id is not in `seen`
is appended as a `content` item and its id added to `seen`. -/
def ftsDedup (nq : List Char) (seen : List Nat) : List DocEntry → List SearchItem
  | [] => []
  | e :: rest =>
      if e.id ∈ seen then ftsDedup nq seen rest
      else mkFtsItem nq e :: ftsDedup nq (e.id :: seen) rest

/-- Descending order on relevance scores, the comparator
`(a, b) => b.relevance_score - a.relevance_score`. -/
def scoreDesc (a b : SearchItem) : Prop :=
  b.relevance_score ≤ a.relevance_score

instance : DecidableRel scoreDesc := fun a b =>
  Nat.decLe b.relevance_score a.relevance_score

instance : IsTotal SearchItem scoreDesc :=
  ⟨fun a b => by unfold scoreDesc; exact Nat.le_total _ _⟩

instance : IsTrans SearchItem scoreDesc :=
  ⟨fun _ _ _ h h2 => by unfold scoreDesc at *; exact Nat.le_trans h2 h⟩

/-- The merged, de-duplicated result list of `searchDocumentation`
before sorting: exact matches first (seeding `seen` with their ids),
then the full-text matches not already seen. -/
def mergedItems (store ftsRows : List DocEntry) (nq : List Char)
    (category : Option String) : List SearchItem :=
  let ex := exactRows store nq category
  ex.map mkExactItem
    ++ ftsDedup nq (ex.map DocEntry.id) (ftsRows.filter (categoryMatches category))

/-- The merged result list after the sort by descending relevance
score (`results.sort((a, b) => b.relevance_score - a.relevance_score)`). -/
def searchMergedList (store ftsRows : List DocEntry) (nq : List Char)
    (category : Option String) : List SearchItem :=
  List.insertionSort scoreDesc (mergedItems store ftsRows nq category)

/-- The object returned by `searchDocumentation`. -/
structure SearchResult where
  results : List SearchItem
  total_count : Nat
  offset : Nat
  limit : Nat
  query : List Char
deriving DecidableEq, Repr

/-- `searchDocumentation(query, {limit, offset, category})`: normalise
the query, run the substring and full-text lookups, merge as above and
slice by offset/limit. `ftsRows` are the rows the store's full-text
index returns for the normalised query. -/
def searchDocumentation (store ftsRows : List DocEntry) (query : String)
    (limit offset : Nat) (category : Option String) : SearchResult :=
  let nq := trimLower query
  let sorted := searchMergedList store ftsRows nq category
  { results := (sorted.drop offset).take limit
    total_count := sorted.length
    offset := offset
    limit := limit
    query := nq }

/-- The trimmed row shape of the related-documentation lookup
(`select id, instruction, description, url, webdna_id`). -/
structure RelatedDoc where
  id : Nat
  instruction : String
  description : Option String
  url : String
  webdna_id : String
deriving DecidableEq, Repr

/-- Projection of a store row to the related-documentation shape. -/
def toRelated (e : DocEntry) : RelatedDoc :=
  ⟨e.id, e.instruction, e.description, e.url, e.webdna_id⟩

/-- The object returned by `getDocumentationById` for a resolved
entry: the row plus `category_name`, `category_id` and the resolved
`related_docs`. -/
structure DocView where
  entry : DocEntry
  category_name : String
  category_id : Option Nat
  related_docs : List RelatedDoc
deriving DecidableEq, Repr

/-- Response formatting of `getDocumentationById`: attach the category
name (defaulting to `Uncategorized`) and, when `related` is a
non-empty array, the rows `WHERE id IN related`. -/
def formatDoc (store : List DocEntry) (e : DocEntry) : DocView :=
  { entry := e
    category_name := e.category_name.getD "Uncategorized"
    category_id := e.category_id
    related_docs :=
      if e.related = [] then []
      else (store.filter (fun r => decide (r.id ∈ e.related))).map toRelated }

/-- `getDocumentationById(idOrName)`: a key matching `/^\d+$/` is
looked up by numeric store id only; any other key is looked up by
`webdna_id` first and, when that returns no row, by case-insensitive
instruction name; an unresolved key yields `null`, never a throw. -/
def getDocumentationById (store : List DocEntry) (key : String) : Option DocView :=
  if isNumericKey key then
    (store.find? (fun e => e.id == parseDigits key.data)).map (formatDoc store)
  else
    match store.find? (fun e => e.webdna_id == key) with
    | some e => some (formatDoc store e)
    | none =>
        (store.find? (fun e =>
          decide (lowerData e.instruction = lowerData key))).map (formatDoc store)

/-- One row of the `categories` table. -/
structure Category where
  id : Nat
  name : String
  description : Option String
deriving DecidableEq, Repr

/-- One element of the list returned by `getCategories`. -/
structure CategoryView where
  category : Category
  instruction_count : Nat
deriving DecidableEq, Repr

/-- `getCategories()`: all categories ordered by name, each with the
count of documentation rows grouped by `category_id`. -/
def getCategoriesResult (cats : List Category) (store : List DocEntry) :
    List CategoryView :=
  (List.insertionSort (fun a b => instrDataLe a.name.data b.name.data = true) cats).map
    (fun c =>
      ⟨c, (store.filter (fun e => e.category_id == some c.id)).length⟩)

/-- The abridged row shape returned by `getRandomDocumentation`. -/
structure RandomDoc where
  id : Nat
  instruction : String
  category : String
  category_id : Option Nat
  description : Option String
  url : String
  webdna_id : String
deriving DecidableEq, Repr

/-- Projection of a store row to the random-sample shape. -/
def toRandomDoc (e : DocEntry) : RandomDoc :=
  ⟨e.id, e.instruction, e.category_name.getD "Uncategorized", e.category_id,
    e.description, e.url, e.webdna_id⟩

/-- Result of a store operation that bypasses the cache, together with
the number of store queries the call executed. -/
structure UncachedCall (α : Type) where
  value : α
  storeQueries : Nat
deriving Repr

/-- `getRandomDocumentation(limit)`: no cache wrapper - every call runs
the store query (`ORDER BY id DESC LIMIT limit`, the code's stand-in
for randomness). -/
def getRandomDocumentation (store : List DocEntry) (limit : Nat) :
    UncachedCall (List RandomDoc) :=
  { value :=
      ((List.insertionSort (fun a b => b.id ≤ a.id) store).take limit).map toRandomDoc
    storeQueries := 1 }

/-- `getDocumentationCount()`'s underlying query: the exact row count
of the `documentation` table. -/
def docCountQuery (store : List DocEntry) : Nat := store.length

/-! ### The read-through query cache (`cachedQuery` in the cache-aware
`database.js` revision) -/

/-- One value of the `queryCache` map: result plus capture timestamp. -/
structure CacheEntry (α : Type) where
  data : α
  timestamp : Nat
deriving DecidableEq, Repr

/-- The `queryCache` map for one operation; the JS code keeps all
operations in one heterogeneous `Map` whose keys are disjoint by
prefix, modelled here as one typed map per operation with a structured
key. -/
abbrev Cache (κ α : Type) := List (κ × CacheEntry α)

/-- Result of one `cachedQuery` call: the value handed back, the cache
afterwards, and how many times the underlying store query ran (0 or
1). -/
structure CachedCall (κ α : Type) where
  value : α
  cache : Cache κ α
  storeQueries : Nat
deriving Repr

/-- `cachedQuery(cacheKey, queryFn, ttl)`: a cached entry younger than
`ttl` is returned without touching the store; otherwise the query runs
and its result replaces the entry with the current timestamp.
`queryResult` is the value the store would return for this call. -/
def cachedQuery {κ α : Type} [DecidableEq κ] (cacheKey : κ) (queryResult : α)
    (ttl now : Nat) (c : Cache κ α) : CachedCall κ α :=
  match assocLookup c cacheKey with
  | some entry =>
      if now - entry.timestamp < ttl then
        { value := entry.data, cache := c, storeQueries := 0 }
      else
        { value := queryResult
          cache := assocSet c cacheKey ⟨queryResult, now⟩
          storeQueries := 1 }
  | none =>
      { value := queryResult
        cache := assocSet c cacheKey ⟨queryResult, now⟩
        storeQueries := 1 }

/-- TTL of `search:*` cache entries: `5 * 60 * 1000` ms. -/
def searchCacheTtlMs : Nat := 5 * 60 * 1000

/-- TTL of `doc:*` cache entries: `15 * 60 * 1000` ms. -/
def docCacheTtlMs : Nat := 15 * 60 * 1000

/-- TTL of the `categories` cache entry: `30 * 60 * 1000` ms. -/
def categoriesCacheTtlMs : Nat := 30 * 60 * 1000

/-- TTL of the `doc_count` cache entry: `60 * 60 * 1000` ms. -/
def countCacheTtlMs : Nat := 60 * 60 * 1000

/-- The cache key `search:${normalizedQuery}:${limit}:${offset}:${category||'all'}`,
as its deterministic argument signature. -/
abbrev SearchKey := List Char × Nat × Nat × Option String

/-- The cache wrapper around `searchDocumentation` (TTL 5 minutes). -/
def searchDocumentationCached (store ftsRows : List DocEntry) (query : String)
    (limit offset : Nat) (category : Option String) (now : Nat)
    (c : Cache SearchKey SearchResult) : CachedCall SearchKey SearchResult :=
  cachedQuery (trimLower query, limit, offset, category)
    (searchDocumentation store ftsRows query limit offset category)
    searchCacheTtlMs now c

/-- The cache wrapper around `getDocumentationById` (key `doc:${id}`,
TTL 15 minutes). -/
def getDocumentationByIdCached (store : List DocEntry) (key : String)
    (now : Nat) (c : Cache String (Option DocView)) :
    CachedCall String (Option DocView) :=
  cachedQuery key (getDocumentationById store key) docCacheTtlMs now c

/-- The cache wrapper around `getCategories` (key `categories`, TTL 30
minutes). -/
def getCategoriesCached (cats : List Category) (store : List DocEntry)
    (now : Nat) (c : Cache Unit (List CategoryView)) :
    CachedCall Unit (List CategoryView) :=
  cachedQuery () (getCategoriesResult cats store) categoriesCacheTtlMs now c

/-- The cache wrapper around `getDocumentationCount` (key `doc_count`,
TTL 60 minutes). -/
def getDocumentationCountCached (store : List DocEntry) (now : Nat)
    (c : Cache Unit Nat) : CachedCall Unit Nat :=
  cachedQuery () (docCountQuery store) countCacheTtlMs now c

/-! ### The HTTP route `POST /mcp/invoke_tool` (`mcp-http-server.js`) -/

/-- Opaque model of the JSON `params` object. -/
abbrev ToolParams := List (String × String)

/-- The request body `{tool, params}` as destructured by the route. -/
structure InvokeToolBody where
  tool : Option String
  params : Option ToolParams
deriving DecidableEq, Repr

/-- The message the route hands to `mcp.send` together with the chosen
timeout. -/
structure ForwardedMsg where
  type : MsgType
  tool : String
  params : ToolParams
  timeoutMs : Nat
deriving DecidableEq, Repr

/-- What the route does with one request: either an immediate HTTP
reply (the 400), or a message forwarded to the worker via the
correlator, never both. -/
structure InvokeRouteOut where
  reply : Option (Nat × ErrorInfo)
  sent : Option ForwardedMsg
deriving DecidableEq, Repr

/-- JS truthiness of the destructured `tool` field: absent and the
empty string are both falsy. -/
def jsTruthyString : Option String → Bool
  | none => false
  | some s => !(s = "")

/-- The 400 error body `{message: 'Missing tool parameter', code:
'MISSING_PARAMETER'}`. -/
def missingToolError : ErrorInfo :=
  { message := "Missing tool parameter", code := some "MISSING_PARAMETER" }

/-- The `POST /mcp/invoke_tool` handler: `if (!tool)` reply 400 with
`MISSING_PARAMETER` and send nothing; otherwise forward
`{type: 'invoke_tool', tool, params: params || {}}` with the 60000 ms
timeout. -/
def postInvokeTool (body : InvokeToolBody) : InvokeRouteOut :=
  if jsTruthyString body.tool then
    { reply := none
      sent := some
        { type := MsgType.invokeTool
          tool := body.tool.getD ""
          params := body.params.getD []
          timeoutMs := 60000 } }
  else
    { reply := some (400, missingToolError), sent := none }

/-! ### The stdio worker (`mcp-stdin-server.js`) -/

/-- Result payload of a successful tool invocation, one shape per
tool. -/
inductive ToolPayload where
  | searchRes (r : SearchResult)
  | doc (d : DocView)
  | categories (cs : List CategoryView)
  | docs (ds : List RandomDoc)
  | stats (totalDocs totalCategories uptimeSeconds : Nat) (version : String)
deriving DecidableEq, Repr

/-- One line the worker writes to its stdout. -/
inductive WorkerMsg where
  | ready
  | tools (toolNames : List String)
  | ping (id : String)
  | toolResult (id : String) (payload : ToolPayload)
  | toolError (id : String) (errMessage : String)
deriving DecidableEq, Repr

/-- The worker's `initialize()`: database initialisation may fail, but
the failure is caught inside `initialize` itself and only logged;
`isConnected` stays false in that case. Returns (isConnected, logged
error messages). `dbInit` is the outcome of `initializeDatabase()`. -/
def runWorkerInit (dbInit : Except String Unit) : Bool × List String :=
  match dbInit with
  | Except.ok _ => (true, [])
  | Except.error e => (false, ["Error during initialization: " ++ e])

/-- The `case 'init'` branch of the worker's line handler: await
`initialize()` (whatever its outcome), then send `{type: 'ready'}`.
Returns the messages written and the resulting `isConnected` flag. -/
def workerHandleInit (dbInit : Except String Unit) : List WorkerMsg × Bool :=
  ([WorkerMsg.ready], (runWorkerInit dbInit).1)

/-- Error text `Error invoking tool ${tool}: ${message}` of the
`catch` block of `handleToolInvocation`. -/
def invokeErrMsg (tool e : String) : String :=
  "Error invoking tool " ++ tool ++ ": " ++ e

/-- The tool names `handleToolInvocation` dispatches on. -/
def knownTools : List String :=
  ["search-webdna-docs", "get-webdna-doc", "get-webdna-categories",
   "get-random-webdna-docs", "get-webdna-stats"]

/-- Outcomes of the awaited store calls during one tool invocation;
`Except.error` stands for a thrown store error (or a thrown parameter
access such as reading `params.query` of an absent `params`). -/
structure StoreBehavior where
  searchOutcome : Except String SearchResult
  getDocOutcome : Except String (Option DocView)
  categoriesOutcome : Except String (List CategoryView)
  randomOutcome : Except String (List RandomDoc)
  countOutcome : Except String Nat
deriving Repr

/-- `handleToolInvocation(message)`: the response id is the request's
id when supplied, else a fresh uuid (`freshId`); each branch writes
exactly one line - a `tool_result` on success, a `tool_error` for an
unknown tool, a null `get-webdna-doc` lookup, or a thrown store error
(caught by the surrounding `try`). `paramsId` is the string rendering
of `params.id` used in the not-found message; `get-webdna-stats`
awaits the count first, then the categories. -/
def handleToolInvocation (sb : StoreBehavior) (tool : String)
    (reqId : Option String) (freshId : String) (paramsId : String)
    (uptimeSeconds : Nat) (version : String) : List WorkerMsg :=
  let id := reqId.getD freshId
  if tool = "search-webdna-docs" then
    match sb.searchOutcome with
    | Except.ok r => [WorkerMsg.toolResult id (ToolPayload.searchRes r)]
    | Except.error e => [WorkerMsg.toolError id (invokeErrMsg tool e)]
  else if tool = "get-webdna-doc" then
    match sb.getDocOutcome with
    | Except.ok none =>
        [WorkerMsg.toolError id ("Documentation not found for ID: " ++ paramsId)]
    | Except.ok (some d) => [WorkerMsg.toolResult id (ToolPayload.doc d)]
    | Except.error e => [WorkerMsg.toolError id (invokeErrMsg tool e)]
  else if tool = "get-webdna-categories" then
    match sb.categoriesOutcome with
    | Except.ok cs => [WorkerMsg.toolResult id (ToolPayload.categories cs)]
    | Except.error e => [WorkerMsg.toolError id (invokeErrMsg tool e)]
  else if tool = "get-random-webdna-docs" then
    match sb.randomOutcome with
    | Except.ok ds => [WorkerMsg.toolResult id (ToolPayload.docs ds)]
    | Except.error e => [WorkerMsg.toolError id (invokeErrMsg tool e)]
  else if tool = "get-webdna-stats" then
    match sb.countOutcome with
    | Except.error e => [WorkerMsg.toolError id (invokeErrMsg tool e)]
    | Except.ok n =>
        match sb.categoriesOutcome with
        | Except.error e => [WorkerMsg.toolError id (invokeErrMsg tool e)]
        | Except.ok cs =>
            [WorkerMsg.toolResult id
              (ToolPayload.stats n cs.length uptimeSeconds version)]
  else [WorkerMsg.toolError id ("Unknown tool: " ++ tool)]

/-- The id a worker message carries, when it carries one. -/
def workerMsgId : WorkerMsg → Option String
  | WorkerMsg.ready => none
  | WorkerMsg.tools _ => none
  | WorkerMsg.ping i => some i
  | WorkerMsg.toolResult i _ => some i
  | WorkerMsg.toolError i _ => some i

/-- Whether a worker message is a tool response (`tool_result` or
`tool_error`). -/
def isToolResponse : WorkerMsg → Bool
  | WorkerMsg.toolResult _ _ => true
  | WorkerMsg.toolError _ _ => true
  | _ => false

/-! ### Lemmas about association maps -/

theorem assocLookup_remove_self {κ β : Type} [DecidableEq κ]
    (m : List (κ × β)) (i : κ) : assocLookup (assocRemove m i) i = none := by
  induction m with
  | nil => rfl
  | cons x rest ih =>
      obtain ⟨j, v⟩ := x
      by_cases h : j = i <;> simp [assocRemove, assocLookup, h, ih]

theorem assocLookup_remove_ne {κ β : Type} [DecidableEq κ]
    (m : List (κ × β)) {i j : κ} (h : j ≠ i) :
    assocLookup (assocRemove m i) j = assocLookup m j := by
  induction m with
  | nil => rfl
  | cons x rest ih =>
      obtain ⟨k, v⟩ := x
      by_cases hki : k = i
      · subst hki
        have : ¬(k = j) := fun he => h (he ▸ rfl)
        simp [assocRemove, assocLookup, this, ih]
      · by_cases hkj : k = j <;> simp [assocRemove, assocLookup, hki, hkj, h, ih]

theorem assocLookup_set_self {κ β : Type} [DecidableEq κ]
    (m : List (κ × β)) (i : κ) (v : β) :
    assocLookup (assocSet m i v) i = some v := by
  simp [assocSet, assocLookup]

/-! ### Lemmas about the exit handler -/

theorem exit_filter_length (p : PendingMap) (c : Nat) :
    ((p.map exitDelivery).filter (fun d => decide (d.caller = c))).length
      = ((p.map (fun x => x.2.caller)).filter (fun n => decide (n = c))).length := by
  induction p with
  | nil => rfl
  | cons x rest ih =>
      by_cases h : x.2.caller = c <;>
        simp [exitDelivery, List.filter_cons, h, ih]

theorem nodup_filter_length_one :
    ∀ (l : List Nat) (c : Nat), l.Nodup → c ∈ l →
      (l.filter (fun n => decide (n = c))).length = 1 := by
  intro l
  induction l with
  | nil => intro c _ hc; simp at hc
  | cons a rest ih =>
      intro c h hc
      have hnd := List.nodup_cons.mp h
      by_cases hac : a = c
      · subst hac
        have hz : rest.filter (fun n => decide (n = a)) = [] := by
          apply List.filter_eq_nil_iff.mpr
          intro b hb
          simp only [decide_eq_true_eq]
          intro he
          exact hnd.1 (he ▸ hb)
        simp [List.filter_cons, hz]
      · have hcr : c ∈ rest := by
          rcases List.mem_cons.mp hc with he | hr
          · exact absurd he.symm hac
          · exact hr
        simp [List.filter_cons, hac, ih c hnd.2 hcr]

/-! ### C1 - C3: the request correlator -/

/-- C1: an inbound worker message carrying a pending correlation id is
delivered to exactly the pending caller whose id matches, that entry
is removed from the pending map (so the id no longer resolves), every
other pending entry is untouched, and two responses arriving in either
order - also in the reverse of send order - each reach only their own
caller. -/
theorem correlation_uniqueness
    (p : PendingMap) (m1 m2 : WireMsg) (i1 i2 : String) (e1 e2 : PendingEntry)
    (hm1 : m1.id = some i1) (h1 : i1 ≠ "")
    (hm2 : m2.id = some i2) (h2 : i2 ≠ "")
    (h12 : i1 ≠ i2)
    (hl1 : assocLookup p i1 = some e1)
    (hl2 : assocLookup p i2 = some e2) :
    (handleMessage p m1).deliveries = [⟨e1.caller, 200, RespBody.passthrough m1⟩]
      ∧ assocLookup (handleMessage p m1).pending i1 = none
      ∧ (∀ j, j ≠ i1 →
          assocLookup (handleMessage p m1).pending j = assocLookup p j)
      ∧ (handleLines p [m1, m2]).2
          = [⟨e1.caller, 200, RespBody.passthrough m1⟩,
             ⟨e2.caller, 200, RespBody.passthrough m2⟩]
      ∧ (handleLines p [m2, m1]).2
          = [⟨e2.caller, 200, RespBody.passthrough m2⟩,
             ⟨e1.caller, 200, RespBody.passthrough m1⟩] := by
  have ht1 : truthyId m1.id = some i1 := by simp [truthyId, hm1, h1]
  have ht2 : truthyId m2.id = some i2 := by simp [truthyId, hm2, h2]
  have hs1 : handleMessage p m1 =
      { pending := assocRemove p i1
        deliveries := [⟨e1.caller, 200, RespBody.passthrough m1⟩]
        cancelledTimers := [e1.timeoutId]
        unhandled := [] } := by
    simp [handleMessage, ht1, hl1]
  have hs2 : handleMessage p m2 =
      { pending := assocRemove p i2
        deliveries := [⟨e2.caller, 200, RespBody.passthrough m2⟩]
        cancelledTimers := [e2.timeoutId]
        unhandled := [] } := by
    simp [handleMessage, ht2, hl2]
  have hl2r : assocLookup (assocRemove p i1) i2 = some e2 :=
    (assocLookup_remove_ne p (Ne.symm h12)).trans hl2
  have hl1r : assocLookup (assocRemove p i2) i1 = some e1 :=
    (assocLookup_remove_ne p h12).trans hl1
  refine ⟨by rw [hs1], ?_, ?_, ?_, ?_⟩
  · rw [hs1]; exact assocLookup_remove_self p i1
  · intro j hj
    rw [hs1]
    exact assocLookup_remove_ne p hj
  · simp [handleLines, handleMessage, ht1, ht2, hl1, hl2r]
  · simp [handleLines, handleMessage, ht1, ht2, hl2, hl1r]

/-- Witness for C1 at a concrete two-request state: the response with
id `a` reaches caller 1 alone. -/
theorem correlation_uniqueness_witness :
    (handleMessage [("a", ⟨1, 0, 100⟩), ("b", ⟨2, 0, 101⟩)]
        ⟨MsgType.toolResult, some "a", "r1"⟩).deliveries
      = [⟨1, 200, RespBody.passthrough ⟨MsgType.toolResult, some "a", "r1"⟩⟩] :=
  (correlation_uniqueness [("a", ⟨1, 0, 100⟩), ("b", ⟨2, 0, 101⟩)]
    ⟨MsgType.toolResult, some "a", "r1"⟩ ⟨MsgType.toolResult, some "b", "r2"⟩
    "a" "b" ⟨1, 0, 100⟩ ⟨2, 0, 101⟩ rfl (by decide) rfl (by decide) (by decide)
    (by decide) (by decide)).1

/-- C2: when the timeout timer fires while the id is still pending,
that caller receives exactly one delivery - a 504 `tool_error` whose
code is `TIMEOUT` - and the entry is removed; the late response with
the same id then produces no delivery at all, leaves the pending map
unchanged, and merely lands in the logged unhandled branch. -/
theorem timeout_exclusivity
    (p : PendingMap) (m : WireMsg) (i : String) (e : PendingEntry)
    (hne : i ≠ "") (hl : assocLookup p i = some e)
    (hm : m.id = some i) (hty : m.type = MsgType.toolResult) :
    (handleTimeoutFire p i).deliveries
        = [⟨e.caller, 504, RespBody.toolErr i timeoutErrorInfo⟩]
      ∧ timeoutErrorInfo.code = some "TIMEOUT"
      ∧ assocLookup (handleTimeoutFire p i).pending i = none
      ∧ (handleMessage (handleTimeoutFire p i).pending m).deliveries = []
      ∧ (handleMessage (handleTimeoutFire p i).pending m).pending
          = (handleTimeoutFire p i).pending
      ∧ (handleMessage (handleTimeoutFire p i).pending m).unhandled = [m] := by
  have hT : handleTimeoutFire p i =
      { pending := assocRemove p i
        deliveries := [⟨e.caller, 504, RespBody.toolErr i timeoutErrorInfo⟩]
        cancelledTimers := []
        unhandled := [] } := by
    simp [handleTimeoutFire, hl]
  have ht : truthyId m.id = some i := by simp [truthyId, hm, hne]
  have hnone : assocLookup (assocRemove p i) i = none := assocLookup_remove_self p i
  refine ⟨by rw [hT], rfl, ?_, ?_, ?_, ?_⟩ <;>
    simp [hT, handleMessage, handleNonPending, ht, hnone, hty]

/-- Witness for C2 at a concrete one-request state. -/
theorem timeout_exclusivity_witness :
    (handleTimeoutFire [("a", ⟨1, 0, 100⟩)] "a").deliveries
      = [⟨1, 504, RespBody.toolErr "a" timeoutErrorInfo⟩] :=
  (timeout_exclusivity [("a", ⟨1, 0, 100⟩)] ⟨MsgType.toolResult, some "a", "r"⟩
    "a" ⟨1, 0, 100⟩ (by decide) (by decide) rfl rfl).1

/-- C3: on worker exit with N pending requests there are exactly N
failure deliveries, one per pending entry in order - each a 500
`tool_error` saying the worker terminated unexpectedly - every pending
caller (the response objects are pairwise distinct) receives exactly
one of them, every pending timer is cleared, the pending map is
emptied, and the restart is scheduled after the fixed 5000 ms delay. -/
theorem crash_recovery (p : PendingMap)
    (hc : (p.map (fun x => x.2.caller)).Nodup) :
    (handleExit p).pending = []
      ∧ (handleExit p).deliveries.length = p.length
      ∧ (handleExit p).deliveries = p.map exitDelivery
      ∧ (∀ x ∈ p,
          ⟨x.2.caller, 500, RespBody.toolErr x.1 terminatedErrorInfo⟩
            ∈ (handleExit p).deliveries)
      ∧ (∀ x ∈ p,
          ((handleExit p).deliveries.filter
            (fun d => decide (d.caller = x.2.caller))).length = 1)
      ∧ (handleExit p).cancelledTimers = p.map (fun x => x.2.timeoutId)
      ∧ (handleExit p).restartDelayMs = 5000 := by
  refine ⟨rfl, by simp [handleExit], rfl, ?_, ?_, rfl, rfl⟩
  · intro x hx
    exact List.mem_map.mpr ⟨x, hx, rfl⟩
  · intro x hx
    have hmem : x.2.caller ∈ p.map (fun y => y.2.caller) :=
      List.mem_map.mpr ⟨x, hx, rfl⟩
    calc ((handleExit p).deliveries.filter
            (fun d => decide (d.caller = x.2.caller))).length
        = ((p.map (fun y => y.2.caller)).filter
            (fun n => decide (n = x.2.caller))).length :=
          exit_filter_length p x.2.caller
      _ = 1 := nodup_filter_length_one _ _ hc hmem

/-- Witness for C3 at a concrete two-request state. -/
theorem crash_recovery_witness :
    (handleExit [("a", ⟨1, 0, 100⟩), ("b", ⟨2, 5, 101⟩)]).deliveries.length = 2 :=
  (crash_recovery [("a", ⟨1, 0, 100⟩), ("b", ⟨2, 5, 101⟩)] (by decide)).2.1

/-! ### Lemmas about the search merge -/

theorem mkFtsItem_id (nq : List Char) (e : DocEntry) :
    (mkFtsItem nq e).id = e.id := rfl

theorem contentScoreOfItem_mkFtsItem (nq : List Char) (e : DocEntry) :
    contentScoreOfItem nq (mkFtsItem nq e) = ftsScore nq e := by
  cases hd : e.description <;>
    simp [contentScoreOfItem, mkFtsItem, ftsScore, nameHasQuery, descrHasQuery, hd]

theorem contentScoreOfItem_le (nq : List Char) (it : SearchItem) :
    contentScoreOfItem nq it ≤ 9 := by
  unfold contentScoreOfItem ftsBaseScore nameBoost descrBoost
  split <;> split <;> omega

theorem ftsDedup_mem {nq : List Char} {seen : List Nat} {rows : List DocEntry}
    {m : SearchItem} (h : m ∈ ftsDedup nq seen rows) :
    ∃ e, e ∈ rows ∧ m = mkFtsItem nq e := by
  induction rows generalizing seen with
  | nil => simp [ftsDedup] at h
  | cons e rest ih =>
      by_cases he : e.id ∈ seen
      · simp only [ftsDedup, if_pos he] at h
        obtain ⟨f, hf, hm⟩ := ih h
        exact ⟨f, List.mem_cons_of_mem _ hf, hm⟩
      · simp only [ftsDedup, if_neg he] at h
        rcases List.mem_cons.mp h with hm | hm
        · exact ⟨e, List.mem_cons_self _ _, hm⟩
        · obtain ⟨f, hf, hmm⟩ := ih hm
          exact ⟨f, List.mem_cons_of_mem _ hf, hmm⟩

theorem ftsDedup_ids_nodup (nq : List Char) :
    ∀ (rows : List DocEntry) (seen : List Nat),
      ((ftsDedup nq seen rows).map SearchItem.id).Nodup
        ∧ ∀ i ∈ (ftsDedup nq seen rows).map SearchItem.id, i ∉ seen := by
  intro rows
  induction rows with
  | nil => intro seen; simp [ftsDedup]
  | cons e rest ih =>
      intro seen
      by_cases he : e.id ∈ seen
      · simpa [ftsDedup, if_pos he] using ih seen
      · have ihx := ih (e.id :: seen)
        constructor
        · simp only [ftsDedup, if_neg he, List.map_cons, mkFtsItem_id]
          refine List.nodup_cons.mpr ⟨?_, ihx.1⟩
          intro hmem
          exact (ihx.2 e.id hmem) (List.mem_cons_self _ _)
        · intro i hi
          simp only [ftsDedup, if_neg he, List.map_cons, mkFtsItem_id] at hi
          rcases List.mem_cons.mp hi with rfl | hi2
          · exact he
          · intro hiseen
            exact (ihx.2 i hi2) (List.mem_cons_of_mem _ hiseen)

theorem map_id_map_mkExactItem (l : List DocEntry) :
    (l.map mkExactItem).map SearchItem.id = l.map DocEntry.id := by
  induction l with
  | nil => rfl
  | cons a t ih => simp [ih, mkExactItem]

theorem exactRows_ids_nodup (store : List DocEntry) (nq : List Char)
    (cat : Option String) (hid : (store.map DocEntry.id).Nodup) :
    ((exactRows store nq cat).map DocEntry.id).Nodup := by
  have hperm : List.Perm (exactRows store nq cat) (store.filter (exactPred nq cat)) :=
    List.perm_insertionSort _ _
  have hsub : List.Sublist ((store.filter (exactPred nq cat)).map DocEntry.id)
      (store.map DocEntry.id) := (List.filter_sublist store).map _
  exact ((hperm.map DocEntry.id).nodup_iff).mpr (hid.sublist hsub)

/-! ### C4: the search merge law -/

/-- C4: over the merged result list of `searchDocumentation`, every
name-substring match scores exactly 1.0 (10 tenths), every
full-text-only match scores 0.5 plus 0.3 when the query occurs in the
name plus 0.1 when it occurs in the description, entry ids are
de-duplicated with the substring match winning (every substring-matched
row appears as its `exact` item and ids are pairwise distinct), the
list is sorted by descending relevance score, the returned `results`
are that list sliced by offset and limit, and no `content` item ever
precedes an `exact` item. -/
theorem search_merge_law (store ftsRows : List DocEntry) (query : String)
    (lim off : Nat) (cat : Option String)
    (hid : (store.map DocEntry.id).Nodup) :
    (∀ it ∈ searchMergedList store ftsRows (trimLower query) cat,
        it.match_type = "exact" → it.relevance_score = exactScore)
      ∧ (∀ it ∈ searchMergedList store ftsRows (trimLower query) cat,
          it.match_type = "content" →
            it.relevance_score = contentScoreOfItem (trimLower query) it)
      ∧ ((searchMergedList store ftsRows (trimLower query) cat).map
          SearchItem.id).Nodup
      ∧ (∀ e ∈ exactRows store (trimLower query) cat,
          mkExactItem e ∈ searchMergedList store ftsRows (trimLower query) cat)
      ∧ List.Sorted scoreDesc (searchMergedList store ftsRows (trimLower query) cat)
      ∧ (searchDocumentation store ftsRows query lim off cat).results
          = ((searchMergedList store ftsRows (trimLower query) cat).drop off).take lim
      ∧ (searchMergedList store ftsRows (trimLower query) cat).Pairwise
          (fun a b => a.match_type = "content" → b.match_type ≠ "exact") := by
  set nq := trimLower query with hnq
  have hperm : List.Perm (searchMergedList store ftsRows nq cat) (mergedItems store ftsRows nq cat) :=
    List.perm_insertionSort _ _
  have hmem : ∀ {m : SearchItem}, m ∈ searchMergedList store ftsRows nq cat →
      (∃ e, m = mkExactItem e) ∨ (∃ e, m = mkFtsItem nq e) := by
    intro m hm
    have hm2 : m ∈ mergedItems store ftsRows nq cat := hperm.mem_iff.mp hm
    simp only [mergedItems, List.mem_append] at hm2
    rcases hm2 with hl | hr
    · obtain ⟨e, _, rfl⟩ := List.mem_map.mp hl
      exact Or.inl ⟨e, rfl⟩
    · obtain ⟨e, _, rfl⟩ := ftsDedup_mem hr
      exact Or.inr ⟨e, rfl⟩
  have c1 : ∀ it ∈ searchMergedList store ftsRows nq cat,
      it.match_type = "exact" → it.relevance_score = exactScore := by
    intro it hit hex
    rcases hmem hit with ⟨e, rfl⟩ | ⟨e, rfl⟩
    · rfl
    · exact absurd hex (by simp [mkFtsItem])
  have c2 : ∀ it ∈ searchMergedList store ftsRows nq cat,
      it.match_type = "content" →
        it.relevance_score = contentScoreOfItem nq it := by
    intro it hit hco
    rcases hmem hit with ⟨e, rfl⟩ | ⟨e, rfl⟩
    · exact absurd hco (by simp [mkExactItem])
    · exact (contentScoreOfItem_mkFtsItem nq e).symm
  have hexnd : ((exactRows store nq cat).map DocEntry.id).Nodup :=
    exactRows_ids_nodup store nq cat hid
  have hdd := ftsDedup_ids_nodup nq (ftsRows.filter (categoryMatches cat))
    ((exactRows store nq cat).map DocEntry.id)
  have c3 : ((searchMergedList store ftsRows nq cat).map SearchItem.id).Nodup := by
    have hmi : ((mergedItems store ftsRows nq cat).map SearchItem.id).Nodup := by
      simp only [mergedItems, List.map_append, map_id_map_mkExactItem]
      refine List.nodup_append.mpr ⟨hexnd, hdd.1, ?_⟩
      intro a ha hb
      exact hdd.2 a hb ha
    exact ((hperm.map SearchItem.id).nodup_iff).mpr hmi
  have c4 : ∀ e ∈ exactRows store nq cat,
      mkExactItem e ∈ searchMergedList store ftsRows nq cat := by
    intro e he
    apply hperm.mem_iff.mpr
    simp only [mergedItems]
    exact List.mem_append.mpr (Or.inl (List.mem_map.mpr ⟨e, he, rfl⟩))
  have c5 : List.Sorted scoreDesc (searchMergedList store ftsRows nq cat) := by
    simp only [searchMergedList]
    exact List.sorted_insertionSort scoreDesc _
  have c7 : (searchMergedList store ftsRows nq cat).Pairwise
      (fun a b => a.match_type = "content" → b.match_type ≠ "exact") := by
    refine List.Pairwise.imp_of_mem ?_ c5
    intro a b ha hb hr hca hxb
    have hsa : a.relevance_score = contentScoreOfItem nq a := c2 a ha hca
    have hsb : b.relevance_score = exactScore := c1 b hb hxb
    have hle : contentScoreOfItem nq a ≤ 9 := contentScoreOfItem_le nq a
    have : b.relevance_score ≤ a.relevance_score := hr
    rw [hsa, hsb] at this
    unfold exactScore at this
    omega
  exact ⟨c1, c2, c3, c4, c5, rfl, c7⟩

/-- Witness for C4 at the spec's own example: entries named `table`
and `foo` (the latter full-text-matched with `table` in its
description), query `table`. -/
theorem search_merge_law_witness :
    List.Sorted scoreDesc
      (searchMergedList
        [⟨1, "table", none, "u1", "w1", none, none, []⟩,
         ⟨2, "foo", some "uses a table", "u2", "w2", none, none, []⟩]
        [⟨2, "foo", some "uses a table", "u2", "w2", none, none, []⟩]
        (trimLower "table") none) :=
  (search_merge_law
    [⟨1, "table", none, "u1", "w1", none, none, []⟩,
     ⟨2, "foo", some "uses a table", "u2", "w2", none, none, []⟩]
    [⟨2, "foo", some "uses a table", "u2", "w2", none, none, []⟩]
    "table" 20 0 none (by decide)).2.2.2.2.1

/-! ### C5: empty queries and zero matches -/

theorem containsChars_nil_pat (hay : List Char) : containsChars hay [] = true := by
  cases hay <;> simp [containsChars, leadsWith]

/-- C5 counterexample: with one entry named `table` and an empty
query, `searchDocumentation` returns the entry rather than an empty
result list - the normalised empty query is a substring of every
instruction name, so the `ILIKE '%%'` lookup matches everything. -/
theorem search_empty_query_counterexample :
    (searchDocumentation [⟨1, "table", none, "u1", "w1", none, none, []⟩]
      [] "" 20 0 none).results ≠ [] := by decide

/-- C5 (amended): a query that matches no entry name as a substring
and has no full-text rows yields an empty result list and a zero
total, with no error (the model is a total function); an empty or
all-whitespace query, however, normalises to the empty string, which
is a substring of every name, so without a category filter at least
every store entry is returned (as an exact match) instead of an empty
list. -/
theorem search_no_match_empty (store ftsRows : List DocEntry) (q : String)
    (lim off : Nat) (cat : Option String) :
    ((∀ e ∈ store, containsChars (lowerData e.instruction) (trimLower q) = false) →
        ftsRows = [] →
        (searchDocumentation store ftsRows q lim off cat).results = []
          ∧ (searchDocumentation store ftsRows q lim off cat).total_count = 0)
      ∧ (trimLower q = [] →
          store.length ≤ (searchDocumentation store ftsRows q lim off none).total_count) := by
  constructor
  · intro hno hf
    have hfil : store.filter (exactPred (trimLower q) cat) = [] := by
      apply List.filter_eq_nil_iff.mpr
      intro e he
      simp [exactPred, hno e he]
    have hex : exactRows store (trimLower q) cat = [] := by
      simp [exactRows, hfil, List.insertionSort]
    have hm : mergedItems store ftsRows (trimLower q) cat = [] := by
      simp [mergedItems, hex, hf, ftsDedup]
    have hs : searchMergedList store ftsRows (trimLower q) cat = [] := by
      simp [searchMergedList, hm, List.insertionSort]
    constructor
    · show ((searchMergedList store ftsRows (trimLower q) cat).drop off).take lim = []
      simp [hs]
    · show (searchMergedList store ftsRows (trimLower q) cat).length = 0
      simp [hs]
  · intro hq
    show store.length ≤ (searchMergedList store ftsRows (trimLower q) none).length
    rw [hq]
    have hall : store.filter (exactPred [] none) = store := by
      apply List.filter_eq_self.mpr
      intro e he
      simp [exactPred, categoryMatches, containsChars_nil_pat]
    have hexlen : (exactRows store [] none).length = store.length := by
      rw [exactRows, hall]
      exact (List.perm_insertionSort _ _).length_eq
    have hp1 : (searchMergedList store ftsRows [] none).length
        = (mergedItems store ftsRows [] none).length :=
      (List.perm_insertionSort _ _).length_eq
    rw [hp1]
    simp only [mergedItems, List.length_append, List.length_map]
    omega

/-- Witness for the amended C5: a query matching nothing returns the
empty list and total 0. -/
theorem search_no_match_empty_witness :
    (searchDocumentation [⟨1, "table", none, "u1", "w1", none, none, []⟩]
        [] "zzz" 20 0 none).results = []
      ∧ (searchDocumentation [⟨1, "table", none, "u1", "w1", none, none, []⟩]
          [] "zzz" 20 0 none).total_count = 0 :=
  (search_no_match_empty [⟨1, "table", none, "u1", "w1", none, none, []⟩]
    [] "zzz" 20 0 none).1 (by decide) rfl

/-! ### C6: key resolution precedence of `getDocumentationById` -/

/-- C6: a key of decimal digits only resolves by the numeric store id
alone - when no row has that id the result is `null` even if a row's
`webdna_id` equals the key - while any other key resolves by
`webdna_id` first and only falls back to the case-insensitive
instruction-name match when no `webdna_id` row exists; when nothing
resolves the result is the distinguished `null`, not a throw (the
model is a total function into `Option`). -/
theorem getByKey_resolution (store : List DocEntry) (key : String) :
    (isNumericKey key = true →
        (∀ e ∈ store, e.id ≠ parseDigits key.data) →
        getDocumentationById store key = none)
      ∧ (∀ e, isNumericKey key = true →
          store.find? (fun x => x.id == parseDigits key.data) = some e →
          getDocumentationById store key = some (formatDoc store e))
      ∧ (∀ e, isNumericKey key = false →
          store.find? (fun x => x.webdna_id == key) = some e →
          getDocumentationById store key = some (formatDoc store e))
      ∧ (isNumericKey key = false →
          (∀ e ∈ store, e.webdna_id ≠ key) →
          getDocumentationById store key
            = (store.find? (fun e =>
                decide (lowerData e.instruction = lowerData key))).map
                (formatDoc store))
      ∧ (isNumericKey key = false →
          (∀ e ∈ store, e.webdna_id ≠ key) →
          (∀ e ∈ store, lowerData e.instruction ≠ lowerData key) →
          getDocumentationById store key = none) := by
  refine ⟨?_, ?_, ?_, ?_, ?_⟩
  · intro hnum hno
    have hfind : store.find? (fun e => e.id == parseDigits key.data) = none := by
      apply List.find?_eq_none.mpr
      intro x hx
      simp [hno x hx]
    simp [getDocumentationById, hnum, hfind]
  · intro e hnum hfind
    simp [getDocumentationById, hnum, hfind]
  · intro e hnn hfind
    simp [getDocumentationById, hnn, hfind]
  · intro hnn hnow
    have hfw : store.find? (fun e => e.webdna_id == key) = none := by
      apply List.find?_eq_none.mpr
      intro x hx
      simp [hnow x hx]
    simp [getDocumentationById, hnn, hfw]
  · intro hnn hnow hnoname
    have hfw : store.find? (fun e => e.webdna_id == key) = none := by
      apply List.find?_eq_none.mpr
      intro x hx
      simp [hnow x hx]
    have hfn : store.find? (fun e =>
        decide (lowerData e.instruction = lowerData key)) = none := by
      apply List.find?_eq_none.mpr
      intro x hx
      simp [hnoname x hx]
    simp [getDocumentationById, hnn, hfw, hfn]

/-- Witness for C6: the key `42` resolves by numeric store id even
though another row's `webdna_id` is the string `42`. -/
theorem getByKey_resolution_witness :
    getDocumentationById
        [⟨7, "date", none, "u", "42", none, none, []⟩,
         ⟨42, "other", none, "u2", "w", none, none, []⟩] "42"
      = some (formatDoc
          [⟨7, "date", none, "u", "42", none, none, []⟩,
           ⟨42, "other", none, "u2", "w", none, none, []⟩]
          ⟨42, "other", none, "u2", "w", none, none, []⟩) :=
  (getByKey_resolution
    [⟨7, "date", none, "u", "42", none, none, []⟩,
     ⟨42, "other", none, "u2", "w", none, none, []⟩] "42").2.1
    ⟨42, "other", none, "u2", "w", none, none, []⟩ (by decide) (by decide)

/-! ### C7: cache idempotence and TTLs -/

/-- C7: a second call under the same cache key within the TTL window
returns exactly the cached value, runs the store query zero further
times and leaves the cache unchanged; a call at or past the TTL
re-runs the query and refreshes the entry with the new timestamp; the
per-operation TTLs are 5, 15, 30 and 60 minutes for search,
get-by-key, categories and count; `getRandomDocumentation` bypasses
the cache - every call runs one store query. -/
theorem cache_idempotence {α : Type} (k : String) (v v2 : α)
    (ttl t1 t2 t3 : Nat) (c : Cache String α)
    (hk : assocLookup c k = none)
    (hin : t2 - t1 < ttl) (hout : ttl ≤ t3 - t1)
    (store : List DocEntry) (lim : Nat) :
    ((cachedQuery k v ttl t1 c).storeQueries = 1
        ∧ (cachedQuery k v2 ttl t2 (cachedQuery k v ttl t1 c).cache).storeQueries = 0
        ∧ (cachedQuery k v2 ttl t2 (cachedQuery k v ttl t1 c).cache).value = v
        ∧ (cachedQuery k v2 ttl t2 (cachedQuery k v ttl t1 c).cache).cache
            = (cachedQuery k v ttl t1 c).cache)
      ∧ ((cachedQuery k v2 ttl t3 (cachedQuery k v ttl t1 c).cache).storeQueries = 1
        ∧ (cachedQuery k v2 ttl t3 (cachedQuery k v ttl t1 c).cache).value = v2
        ∧ assocLookup
            (cachedQuery k v2 ttl t3 (cachedQuery k v ttl t1 c).cache).cache k
            = some ⟨v2, t3⟩)
      ∧ (searchCacheTtlMs = 5 * 60 * 1000 ∧ docCacheTtlMs = 15 * 60 * 1000
        ∧ categoriesCacheTtlMs = 30 * 60 * 1000 ∧ countCacheTtlMs = 60 * 60 * 1000)
      ∧ (getRandomDocumentation store lim).storeQueries = 1 := by
  have hs1 : cachedQuery k v ttl t1 c =
      { value := v, cache := assocSet c k ⟨v, t1⟩, storeQueries := 1 } := by
    simp [cachedQuery, hk]
  have hl1 : assocLookup (cachedQuery k v ttl t1 c).cache k = some ⟨v, t1⟩ := by
    rw [hs1]
    exact assocLookup_set_self c k ⟨v, t1⟩
  have hnotin : ¬(t3 - t1 < ttl) := Nat.not_lt.mpr hout
  refine ⟨⟨by rw [hs1], ?_, ?_, ?_⟩, ⟨?_, ?_, ?_⟩, ⟨rfl, rfl, rfl, rfl⟩, rfl⟩ <;>
    rw [hs1] <;>
    simp [cachedQuery, assocLookup_set_self, hin, hnotin]

/-- Witness for C7 at concrete times 0, 5 and 10 with TTL 10. -/
theorem cache_idempotence_witness :
    (cachedQuery "k" 2 10 5 (cachedQuery "k" (1 : Nat) 10 0
        ([] : Cache String Nat)).cache).storeQueries = 0
      ∧ (cachedQuery "k" 2 10 5 (cachedQuery "k" (1 : Nat) 10 0
          ([] : Cache String Nat)).cache).value = 1 :=
  have h := cache_idempotence "k" (1 : Nat) 2 10 0 5 10
    ([] : Cache String Nat) rfl (by decide) (by decide) [] 5
  ⟨h.1.2.1, h.1.2.2.1⟩

/-! ### C8: validation of `POST /mcp/invoke_tool` -/

/-- C8 counterexample: a body whose `tool` field is present but equal
to the empty string is not forwarded to the worker - `if (!tool)`
treats every falsy value as missing - so `tool` being present does not
suffice for forwarding: the route replies 400 and sends nothing. -/
theorem invoke_tool_empty_string_counterexample :
    (postInvokeTool { tool := some "", params := none }).sent = none
      ∧ (postInvokeTool { tool := some "", params := none }).reply
          = some (400, missingToolError) := by decide

/-- C8 (amended): a body whose `tool` field is falsy - absent or the
empty string - receives status 400 with error code `MISSING_PARAMETER`
and nothing is written to the worker; a body whose `tool` is a
non-empty string is forwarded as `{type: 'invoke_tool', tool, params:
params || {}}` with the 60000 ms timeout and no immediate reply. -/
theorem invoke_tool_validation (body : InvokeToolBody) :
    (jsTruthyString body.tool = false →
        (postInvokeTool body).reply = some (400, missingToolError)
          ∧ (postInvokeTool body).sent = none)
      ∧ (∀ t, body.tool = some t → t ≠ "" →
          (postInvokeTool body).reply = none
            ∧ (postInvokeTool body).sent
                = some ⟨MsgType.invokeTool, t, body.params.getD [], 60000⟩)
      ∧ missingToolError.code = some "MISSING_PARAMETER" := by
  refine ⟨?_, ?_, rfl⟩
  · intro hf
    simp [postInvokeTool, hf]
  · intro t ht hne
    simp [postInvokeTool, jsTruthyString, ht, hne]

/-- Witness for the amended C8: tool `x` is forwarded with the 60 s
timeout. -/
theorem invoke_tool_validation_witness :
    (postInvokeTool { tool := some "x", params := none }).reply = none
      ∧ (postInvokeTool { tool := some "x", params := none }).sent
          = some ⟨MsgType.invokeTool, "x", [], 60000⟩ :=
  (invoke_tool_validation { tool := some "x", params := none }).2.1
    "x" rfl (by decide)

/-! ### C9: the worker acknowledges `init` unconditionally -/

/-- C9: for every outcome of database initialisation the worker's
`init` handler writes exactly the `ready` message; a failed
initialisation is only recorded internally (`isConnected` stays
false), and the messages written are identical to the success case, so
a caller cannot distinguish a worker with a working store from one
whose initialisation failed. -/
theorem init_always_ready (r : Except String Unit) (e : String) :
    (workerHandleInit r).1 = [WorkerMsg.ready]
      ∧ (workerHandleInit (Except.error e)).1 = (workerHandleInit (Except.ok ())).1
      ∧ (runWorkerInit (Except.error e)).1 = false
      ∧ (runWorkerInit (Except.ok ())).1 = true :=
  ⟨rfl, rfl, rfl, rfl⟩

/-! ### C10: one response line per tool invocation -/

/-- Shape of every branch of `handleToolInvocation`: exactly one
message, always a tool response, always carrying the resolved id. -/
theorem handleToolInvocation_shape (sb : StoreBehavior) (tool : String)
    (reqId : Option String) (freshId paramsId : String) (up : Nat) (ver : String) :
    ∃ m, handleToolInvocation sb tool reqId freshId paramsId up ver = [m]
      ∧ workerMsgId m = some (reqId.getD freshId)
      ∧ isToolResponse m = true := by
  unfold handleToolInvocation
  by_cases h1 : tool = "search-webdna-docs"
  · rw [if_pos h1]
    cases sb.searchOutcome <;> exact ⟨_, rfl, rfl, rfl⟩
  rw [if_neg h1]
  by_cases h2 : tool = "get-webdna-doc"
  · rw [if_pos h2]
    rcases sb.getDocOutcome with e | d
    · exact ⟨_, rfl, rfl, rfl⟩
    · cases d <;> exact ⟨_, rfl, rfl, rfl⟩
  rw [if_neg h2]
  by_cases h3 : tool = "get-webdna-categories"
  · rw [if_pos h3]
    cases sb.categoriesOutcome <;> exact ⟨_, rfl, rfl, rfl⟩
  rw [if_neg h3]
  by_cases h4 : tool = "get-random-webdna-docs"
  · rw [if_pos h4]
    cases sb.randomOutcome <;> exact ⟨_, rfl, rfl, rfl⟩
  rw [if_neg h4]
  by_cases h5 : tool = "get-webdna-stats"
  · rw [if_pos h5]
    rcases sb.countOutcome with e | n
    · exact ⟨_, rfl, rfl, rfl⟩
    · cases sb.categoriesOutcome <;> exact ⟨_, rfl, rfl, rfl⟩
  rw [if_neg h5]
  exact ⟨_, rfl, rfl, rfl⟩

/-- C10: every `invoke_tool` the worker processes produces exactly one
response line, always a `tool_result` or `tool_error`, always carrying
the request's id when supplied and a fresh uuid otherwise; an unknown
tool name yields the `Unknown tool` error, a successful search yields
the `tool_result`, a thrown store error yields the invocation error,
and a null `get-webdna-doc` lookup yields the not-found error. -/
theorem tool_invocation_single_response (sb : StoreBehavior) (tool : String)
    (reqId : Option String) (freshId paramsId : String) (up : Nat) (ver : String) :
    (handleToolInvocation sb tool reqId freshId paramsId up ver).length = 1
      ∧ (∀ m ∈ handleToolInvocation sb tool reqId freshId paramsId up ver,
          workerMsgId m = some (reqId.getD freshId) ∧ isToolResponse m = true)
      ∧ (tool ∉ knownTools →
          handleToolInvocation sb tool reqId freshId paramsId up ver
            = [WorkerMsg.toolError (reqId.getD freshId) ("Unknown tool: " ++ tool)])
      ∧ (∀ r, tool = "search-webdna-docs" → sb.searchOutcome = Except.ok r →
          handleToolInvocation sb tool reqId freshId paramsId up ver
            = [WorkerMsg.toolResult (reqId.getD freshId) (ToolPayload.searchRes r)])
      ∧ (∀ e, tool = "search-webdna-docs" → sb.searchOutcome = Except.error e →
          handleToolInvocation sb tool reqId freshId paramsId up ver
            = [WorkerMsg.toolError (reqId.getD freshId) (invokeErrMsg tool e)])
      ∧ (tool = "get-webdna-doc" → sb.getDocOutcome = Except.ok none →
          handleToolInvocation sb tool reqId freshId paramsId up ver
            = [WorkerMsg.toolError (reqId.getD freshId)
                ("Documentation not found for ID: " ++ paramsId)]) := by
  obtain ⟨m, hm, hid, hresp⟩ :=
    handleToolInvocation_shape sb tool reqId freshId paramsId up ver
  refine ⟨by rw [hm]; rfl, ?_, ?_, ?_, ?_, ?_⟩
  · intro x hx
    rw [hm] at hx
    rcases List.mem_singleton.mp hx with rfl
    exact ⟨hid, hresp⟩
  · intro hun
    simp only [knownTools, List.mem_cons, List.not_mem_nil, or_false] at hun
    push_neg at hun
    obtain ⟨n1, n2, n3, n4, n5⟩ := hun
    simp [handleToolInvocation, n1, n2, n3, n4, n5]
  · intro r ht hs
    simp [handleToolInvocation, ht, hs]
  · intro e ht hs
    simp [handleToolInvocation, ht, hs, invokeErrMsg]
  · intro ht hs
    simp [handleToolInvocation, ht, hs]

/-- Witness for C10: an unknown tool at concrete inputs yields exactly
the one `Unknown tool` error line carrying the supplied id. -/
theorem tool_invocation_single_response_witness :
    handleToolInvocation
        ⟨Except.ok ⟨[], 0, 0, 20, []⟩, Except.ok none, Except.ok [],
         Except.ok [], Except.ok 0⟩
        "bogus-tool" (some "id7") "fresh" "p" 0 "v"
      = [WorkerMsg.toolError "id7" ("Unknown tool: " ++ "bogus-tool")] :=
  (tool_invocation_single_response
    ⟨Except.ok ⟨[], 0, 0, 20, []⟩, Except.ok none, Except.ok [],
     Except.ok [], Except.ok 0⟩
    "bogus-tool" (some "id7") "fresh" "p" 0 "v").2.2.1 (by decide)

end WebdnaMcp
